import Mathlib

/-!
Shallow embedding of the web-content extraction logic of this repository.

The repository exposes two extraction endpoints in two near-duplicate
revisions:
  * `src/main.py` : `import_contacts` (link classifier) and
    `import_content` (outline builder, highlight pass, metadata passthrough);
  * `src/backend/main.py` : `import_contacts` only, with a different pattern
    set, validated against the `Contacts` response schema of
    `src/backend/schemas.py` (`HttpUrl` / `EmailStr` fields).

We embed the pure transformation layer: the input is the parsed document
(the block sequence, the href list, title and description), i.e. everything
BeautifulSoup hands to the extraction code; the HTTP fetch is modelled as an
explicit outcome (body or failure cause), mirroring the `try/except` around
`requests.get` + `raise_for_status`.
-/

/-! ### String primitives mirroring the Python operations used by the code -/

/-- Python `str.lower` restricted to ASCII case folding, which is all the
classifier patterns exercise (`Char.toLower` maps `A`-`Z` to `a`-`z` and
fixes everything else). -/
def pyLower (s : String) : String := ⟨s.data.map Char.toLower⟩

/-- `listPrefixOf pat l` : `pat` is a prefix of `l` (Python `str.startswith`
on the underlying characters). -/
def listPrefixOf : List Char → List Char → Bool
  | [], _ => true
  | _ :: _, [] => false
  | a :: as, b :: bs => a == b && listPrefixOf as bs

/-- `listInfixOf pat l` : `pat` occurs as a contiguous run in `l`
(Python `pat in l`, also `re.search` on a literal pattern). -/
def listInfixOf (pat : List Char) : List Char → Bool
  | [] => listPrefixOf pat []
  | c :: rest => listPrefixOf pat (c :: rest) || listInfixOf pat rest

/-- Python `pat in s` (substring test). -/
def pyContains (s pat : String) : Bool := listInfixOf pat.data s.data

/-- Python `s.startswith(pat)`. -/
def pyStartsWith (s pat : String) : Bool := listPrefixOf pat.data s.data

/-- Characters after the first occurrence of `sep`; `[]` when `sep` is
absent.  Models Python `s.split(sep, 1)[1]` on the code path where the
guard has already established that `sep` occurs in `s`. -/
def afterFirst (sep : Char) : List Char → List Char
  | [] => []
  | c :: cs => if c == sep then cs else afterFirst sep cs

/-- Characters before the first occurrence of `sep` (the whole list when
`sep` is absent).  Models Python `s.split(sep)[0]`. -/
def beforeFirst (sep : Char) : List Char → List Char
  | [] => []
  | c :: cs => if c == sep then [] else c :: beforeFirst sep cs

/-- Fuel-driven helper for Python `str.replace`: replaces every
left-to-right non-overlapping occurrence of `pat` by nothing.  The fuel is
the length of the scanned list, which bounds the recursion. -/
def listRemoveAllAux (pat : List Char) : Nat → List Char → List Char
  | 0, s => s
  | _ + 1, [] => []
  | fuel + 1, c :: rest =>
      if !pat.isEmpty && listPrefixOf pat (c :: rest) then
        listRemoveAllAux pat fuel ((c :: rest).drop pat.length)
      else
        c :: listRemoveAllAux pat fuel rest

/-- Python `s.replace(pat, "")`: every occurrence of `pat` removed. -/
def pyRemoveAll (s pat : String) : String :=
  ⟨listRemoveAllAux pat.data s.data.length s.data⟩

/-- Word counter for Python `len(s.split())`: maximal runs of
non-whitespace characters. -/
def wordCountAux : List Char → Bool → Nat
  | [], _ => 0
  | c :: cs, inWord =>
      if c.isWhitespace then wordCountAux cs false
      else (if inWord then 0 else 1) + wordCountAux cs true

/-- Python `len(s.split())`: number of whitespace-separated words. -/
def pyWordCount (s : String) : Nat := wordCountAux s.data false

/-! ### Data model (from `src/main.py`) -/

/-- Tag names collected by `soup.find_all(['h1','h2','h3','p','li'])`. -/
inductive Tag where
  | h1 | h2 | h3 | p | li
  deriving DecidableEq, Repr

/-- One entry of the `blocks` list of `import_content`: tag name plus the
trimmed text (`tag.get_text(separator=' ', strip=True)`); blocks whose text
is empty are filtered out before this list is built (`if not text: continue`). -/
structure Block where
  tag : Tag
  text : String
  deriving DecidableEq, Repr

/-- `ContentSection` of `src/main.py`.  In `import_content` the `points`
field is always constructed with an explicit list, so we embed it as
`List String` rather than `Option (List String)`. -/
structure ContentSection where
  title : Option String := none
  subtitle : Option String := none
  points : List String := []
  deriving DecidableEq, Repr

/-- One entry of the `highlights` list: the dict
`{'title': ..., 'text': None}` built by the highlight pass. -/
structure Highlight where
  title : String
  text : Option String := none
  deriving DecidableEq, Repr

/-- `ContentResponse` of `src/main.py`. -/
structure ContentResponse where
  source : String
  title : Option String := none
  description : Option String := none
  highlights : List Highlight := []
  sections : List ContentSection := []
  deriving DecidableEq, Repr

/-! ### Outline builder (`import_content` of `src/main.py`, lines 119-181) -/

/-- Python truthiness of an `Optional[str]` field: `None` and the empty
string are falsy. -/
def optStrTruthy : Option String → Bool
  | none => false
  | some s => !s.isEmpty

/-- Truthiness of `current.title or current.subtitle or current.points`,
the emission guard of the section walk. -/
def sectionTruthy (c : ContentSection) : Bool :=
  optStrTruthy c.title || optStrTruthy c.subtitle || !c.points.isEmpty

/-- The observable effect of `(current.points or []).append(text)`:
when `current.points` is a non-empty (truthy) list the append lands on
that list; when it is empty, `current.points or []` evaluates to a fresh
temporary list, the append mutates that temporary, and the temporary is
discarded — the section is left unchanged. -/
def appendPoint (c : ContentSection) (text : String) : ContentSection :=
  if c.points.isEmpty then c
  else { c with points := c.points ++ [text] }

/-- State of the section walk: the emitted sections so far and the
in-progress `current` section (or `none`). -/
abbrev WalkState := List ContentSection × Option ContentSection

/-- One iteration of the `for b in blocks` loop of the section walk. -/
def sectionStep (st : WalkState) (b : Block) : WalkState :=
  let (sections, current) := st
  match b.tag with
  | Tag.h2 | Tag.h3 =>
      let sections :=
        match current with
        | some c => if sectionTruthy c then sections ++ [c] else sections
        | none => sections
      (sections, some { title := some b.text, subtitle := none, points := [] })
  | Tag.p =>
      match current with
      | none =>
          (sections, some { title := some b.text, subtitle := none, points := [] })
      | some c =>
          if c.subtitle.isNone && decide (pyWordCount b.text > 4) && c.points.isEmpty then
            (sections, some { c with subtitle := some b.text })
          else
            (sections, some (appendPoint c b.text))
  | Tag.li =>
      match current with
      | none =>
          (sections, some { title := some "Highlights", subtitle := none, points := [b.text] })
      | some c => (sections, some (appendPoint c b.text))
  | Tag.h1 => (sections, current)

/-- Final emission after the walk: `if current and (...): sections.append(current)`. -/
def emitFinal (st : WalkState) : List ContentSection :=
  match st.2 with
  | some c => if sectionTruthy c then st.1 ++ [c] else st.1
  | none => st.1

/-- The per-section truncation `if s.points: s.points = s.points[:8]`
applied after the walk. -/
def truncatePoints (s : ContentSection) : ContentSection :=
  if s.points.isEmpty then s else { s with points := s.points.take 8 }

/-- The full section pipeline of `import_content`: walk, final emission,
points truncation.  (The `[:10]` cap is applied at response assembly.) -/
def buildSections (blocks : List Block) : List ContentSection :=
  (emitFinal (blocks.foldl sectionStep ([], none))).map truncatePoints

/-- Title of one highlight entry:
`b['text'][:120] + ('…' if len(b['text']) > 120 else '')`. -/
def highlightTitle (text : String) : String :=
  text.take 120 ++ (if text.length > 120 then "…" else "")

/-- The highlight loop over `blocks[:40]` with its `if len(highlights) >= 6:
break` short-circuit, checked after each block is processed. -/
def buildHighlightsAux : List Block → List Highlight → List Highlight
  | [], acc => acc
  | b :: bs, acc =>
      let acc :=
        match b.tag with
        | Tag.h1 | Tag.h2 => acc ++ [{ title := b.text, text := none }]
        | Tag.p =>
            if pyWordCount b.text > 6 then
              acc ++ [{ title := highlightTitle b.text, text := none }]
            else acc
        | _ => acc
      if 6 ≤ acc.length then acc else buildHighlightsAux bs acc

/-- The highlight pass of `import_content`. -/
def buildHighlights (blocks : List Block) : List Highlight :=
  buildHighlightsAux (blocks.take 40) []

/-- `import_content` after a successful fetch and parse: `title` and
`description` are the metadata extracted from the soup, `blocks` the
filtered block sequence.  Mirrors the response assembly, including the
`sections[:10]` cap. -/
def import_content (url : String) (title description : Option String)
    (blocks : List Block) : ContentResponse :=
  { source := url
    title := title
    description := description
    highlights := buildHighlights blocks
    sections := (buildSections blocks).take 10 }

example :
    buildSections
      [⟨Tag.h2, "Services"⟩,
       ⟨Tag.p, "We build great things for clients worldwide."⟩,
       ⟨Tag.li, "Fast"⟩, ⟨Tag.li, "Reliable"⟩] =
    [{ title := some "Services",
       subtitle := some "We build great things for clients worldwide.",
       points := [] }] := by decide

example : pyWordCount "We build great things for clients worldwide." = 7 := by decide
example : pyContains "https://wa.me/123" "wa.me/" = true := by decide
example : pyRemoveAll "mailto:a@b.com?subject=hi" "mailto:" = "a@b.com?subject=hi" := by decide

/-! ### Link classifier (`import_contacts` of `src/main.py`, lines 82-108) -/

/-- `ContactsResponse` of `src/main.py`: four plain optional strings. -/
structure ContactsResponse where
  instagram : Option String := none
  whatsapp : Option String := none
  email : Option String := none
  x : Option String := none
  deriving DecidableEq, Repr

/-- `re.search(r"instagram\.com/", l, re.I)`: case-insensitive literal
substring search, i.e. `instagram.com/` occurs in the lowercased href. -/
def isInstagramLink (l : String) : Bool := pyContains (pyLower l) "instagram.com/"

/-- `re.search(r"wa\.me/|api\.whatsapp\.com/|whatsapp\.com/send", l, re.I)`. -/
def isWhatsappLink (l : String) : Bool :=
  pyContains (pyLower l) "wa.me/" || pyContains (pyLower l) "api.whatsapp.com/" ||
    pyContains (pyLower l) "whatsapp.com/send"

/-- `l.lower().startswith('mailto:')`. -/
def isMailtoLink (l : String) : Bool := pyStartsWith (pyLower l) "mailto:"

/-- `re.search(r"twitter\.com/|x\.com/", l, re.I)`. -/
def isXLink (l : String) : Bool :=
  pyContains (pyLower l) "twitter.com/" || pyContains (pyLower l) "x.com/"

/-- The e-mail normalization `email.split(':', 1)[1].split('?')[0]`: keep
what follows the first `:` and strip everything from the first `?` on. -/
def normalizeEmail (l : String) : String := ⟨beforeFirst '?' (afterFirst ':' l.data)⟩

/-- `import_contacts` of `src/main.py` after a successful fetch: `links` is
the href list `[a.get('href') for a in soup.find_all('a') if a.get('href')]`
in document order.  Each field is the first match of its pattern
(`next((l for l in links if ...), None)`); the e-mail field is then
normalized under the guard `if email and email.lower().startswith('mailto:')`. -/
def import_contacts (links : List String) : ContactsResponse :=
  let instagram := links.find? isInstagramLink
  let whatsapp := links.find? isWhatsappLink
  let email0 := links.find? isMailtoLink
  let xlink := links.find? isXLink
  let email :=
    match email0 with
    | none => none
    | some e => if !e.isEmpty && isMailtoLink e then some (normalizeEmail e) else some e
  { instagram := instagram, whatsapp := whatsapp, email := email, x := xlink }

/-! ### Link classifier (`import_contacts` of `src/backend/main.py`, lines 58-84) -/

/-- The mutable `data` dict of the backend classifier; a key absent from
the dict is `none`. -/
structure BackendContacts where
  instagram : Option String := none
  whatsapp : Option String := none
  email : Option String := none
  x : Option String := none
  deriving DecidableEq, Repr

/-- One iteration of the backend loop `for a in soup.find_all("a", href=True)`:
each category fills once (`... and "key" not in data`); instagram, whatsapp
and x match on the lowercased href, the e-mail check is the case-sensitive
`href.startswith("mailto:")` and the stored value is
`href.replace("mailto:", "")` (all occurrences removed, query kept). -/
def backendStep (d : BackendContacts) (href : String) : BackendContacts :=
  let low := pyLower href
  let d :=
    if pyContains low "instagram.com" && d.instagram.isNone then
      { d with instagram := some href } else d
  let d :=
    if (pyContains low "wa.me" || pyContains low "whatsapp") && d.whatsapp.isNone then
      { d with whatsapp := some href } else d
  let d :=
    if pyStartsWith href "mailto:" && d.email.isNone then
      { d with email := some (pyRemoveAll href "mailto:") } else d
  let d :=
    if (pyContains low "twitter.com" || pyContains low "x.com") && d.x.isNone then
      { d with x := some href } else d
  d

/-- The extraction loop of the backend `import_contacts`: `hrefs` is the
stripped href list of the anchors in document order. -/
def backend_import_contacts (hrefs : List String) : BackendContacts :=
  hrefs.foldl backendStep {}

/-! ### Response validation of the backend endpoint

`src/backend/main.py` declares `response_model=Contacts`, and
`src/backend/schemas.py` types `instagram`/`x` as `Optional[HttpUrl]` and
`email` as `Optional[EmailStr]`; FastAPI validates the returned dict against
this model and raises (an unhandled 500) when a field fails validation.
The validators live in the pydantic library, outside this repository, so we
model them by sound necessary conditions: every address pydantic's
`EmailStr` accepts has a non-empty local part and a non-empty domain around
an `@`, and every `HttpUrl` it accepts starts with an `http://` or
`https://` scheme.  A value failing these conditions is rejected by the
real validator as well. -/

/-- Modelled from the spec: the `EmailStr` acceptance test of the pydantic
library (absent from `src/`); a "valid e-mail address" must contain an `@`
with non-empty local part and non-empty domain. -/
def emailStrAccepts (s : String) : Bool :=
  s.data.contains '@' && !(beforeFirst '@' s.data).isEmpty &&
    !(afterFirst '@' s.data).isEmpty

/-- Modelled from the spec: the `HttpUrl` acceptance test of the pydantic
library (absent from `src/`); a valid absolute URL with an `http`/`https`
scheme and a non-empty host. -/
def httpUrlAccepts (s : String) : Bool :=
  (pyStartsWith (pyLower s) "http://" && !(s.data.drop 7).isEmpty) ||
    (pyStartsWith (pyLower s) "https://" && !(s.data.drop 8).isEmpty)

/-- An optional field passes validation when absent or accepted. -/
def optAccepts (accepts : String → Bool) : Option String → Bool
  | none => true
  | some v => accepts v

/-- Validation of the backend response against the `Contacts` schema of
`src/backend/schemas.py` (`whatsapp` is a plain `Optional[str]` and is not
constrained). -/
def contactsSchemaAccepts (d : BackendContacts) : Bool :=
  optAccepts httpUrlAccepts d.instagram && optAccepts emailStrAccepts d.email &&
    optAccepts httpUrlAccepts d.x

/-! ### Endpoints over the fetch boundary -/

/-- The parsed document handed to the extraction code: the data the soup
exposes to `import_contacts` / `import_content`. -/
structure ParsedDoc where
  title : Option String := none
  description : Option String := none
  blocks : List Block := []
  links : List String := []
  deriving Repr

/-- Outcome of `requests.get(url, timeout=...)` + `resp.raise_for_status()`:
either a successfully fetched and parsed document, or any raised exception
(connection error, timeout, non-2xx `HTTPError`) carrying its message
`str(e)`. -/
inductive FetchOutcome where
  | ok (doc : ParsedDoc)
  | fail (cause : String)

/-- `fastapi.HTTPException` as raised by the endpoints, plus the unhandled
response-validation failure FastAPI turns into a 500. -/
structure EndpointError where
  status : Nat
  detail : String
  deriving DecidableEq, Repr

/-- The `/api/import-contacts` endpoint of `src/main.py`: a fetch failure is
caught and re-raised as `HTTPException(400, f"Failed to fetch URL: {e}")`;
on success the classifier runs with no failure path. -/
def import_contacts_endpoint (fetch : FetchOutcome) :
    Except EndpointError ContactsResponse :=
  match fetch with
  | FetchOutcome.fail cause =>
      Except.error { status := 400, detail := "Failed to fetch URL: " ++ cause }
  | FetchOutcome.ok doc => Except.ok (import_contacts doc.links)

/-- The `/api/import-content` endpoint of `src/main.py`. -/
def import_content_endpoint (url : String) (fetch : FetchOutcome) :
    Except EndpointError ContentResponse :=
  match fetch with
  | FetchOutcome.fail cause =>
      Except.error { status := 400, detail := "Failed to fetch URL: " ++ cause }
  | FetchOutcome.ok doc =>
      Except.ok (import_content url doc.title doc.description doc.blocks)

/-- The `/api/import-contacts` endpoint of `src/backend/main.py`: a fetch
failure becomes `HTTPException(400, f"Failed to fetch source: {e}")`; a
successful extraction is then validated against the `Contacts` response
model, and a validation failure escapes as an unhandled error (HTTP 500). -/
def backend_import_contacts_endpoint (fetch : FetchOutcome) :
    Except EndpointError BackendContacts :=
  match fetch with
  | FetchOutcome.fail cause =>
      Except.error { status := 400, detail := "Failed to fetch source: " ++ cause }
  | FetchOutcome.ok doc =>
      let d := backend_import_contacts doc.links
      if contactsSchemaAccepts d then Except.ok d
      else Except.error { status := 500, detail := "ResponseValidationError" }

example : import_contacts ["mailto:a@b.com?subject=hi"] =
    { email := some "a@b.com" } := by decide
example : backend_import_contacts ["mailto:a@b.com?subject=hi"] =
    { email := some "a@b.com?subject=hi" } := by decide
example : backend_import_contacts ["MAILTO:a@b.com", "mailto:c@d.com"] =
    { email := some "c@d.com" } := by decide
example : backend_import_contacts ["https://wiki.example/whatsapp"] =
    { whatsapp := some "https://wiki.example/whatsapp" } := by decide

/-! ### Provenance-instrumented section walk

To state which block kind opened each emitted section we run the identical
walk with every section labelled by its origin: the branch of the loop body
that created it.  The instrumented walk is step-for-step the walk of
`import_content`; forgetting the labels recovers it exactly
(`buildSectionsTracked_proj`). -/

/-- Which branch of the section walk created a section: an `h2`/`h3`
heading, a paragraph seen with no section in progress, or a list item seen
with no section in progress (the `'Highlights'` fallback). -/
inductive SectionOrigin where
  | fromHeading | fromParagraph | fromListItem
  deriving DecidableEq, Repr

/-- A section together with the provenance label of the branch that
created it. -/
structure TrackedSection where
  sec : ContentSection
  origin : SectionOrigin
  deriving DecidableEq, Repr

/-- `appendPoint` lifted to a labelled section (labels are untouched). -/
def trackedAppend (t : TrackedSection) (text : String) : TrackedSection :=
  { t with sec := appendPoint t.sec text }

/-- State of the instrumented walk. -/
abbrev TrackedState := List TrackedSection × Option TrackedSection

/-- The instrumented copy of `sectionStep`. -/
def trackedStep (st : TrackedState) (b : Block) : TrackedState :=
  let (sections, current) := st
  match b.tag with
  | Tag.h2 | Tag.h3 =>
      let sections :=
        match current with
        | some c => if sectionTruthy c.sec then sections ++ [c] else sections
        | none => sections
      (sections, some ⟨{ title := some b.text, subtitle := none, points := [] },
        SectionOrigin.fromHeading⟩)
  | Tag.p =>
      match current with
      | none =>
          (sections, some ⟨{ title := some b.text, subtitle := none, points := [] },
            SectionOrigin.fromParagraph⟩)
      | some c =>
          if c.sec.subtitle.isNone && decide (pyWordCount b.text > 4) && c.sec.points.isEmpty then
            (sections, some ⟨{ c.sec with subtitle := some b.text }, c.origin⟩)
          else
            (sections, some (trackedAppend c b.text))
  | Tag.li =>
      match current with
      | none =>
          (sections, some ⟨{ title := some "Highlights", subtitle := none, points := [b.text] },
            SectionOrigin.fromListItem⟩)
      | some c => (sections, some (trackedAppend c b.text))
  | Tag.h1 => (sections, current)

/-- The instrumented copy of `emitFinal`. -/
def trackedEmitFinal (st : TrackedState) : List TrackedSection :=
  match st.2 with
  | some c => if sectionTruthy c.sec then st.1 ++ [c] else st.1
  | none => st.1

/-- The instrumented copy of `truncatePoints`. -/
def trackedTruncate (t : TrackedSection) : TrackedSection :=
  { t with sec := truncatePoints t.sec }

/-- The instrumented copy of the full section pipeline of `import_content`,
including the `sections[:10]` cap. -/
def buildSectionsTracked (blocks : List Block) : List TrackedSection :=
  (((blocks.foldl trackedStep ([], none)) |> trackedEmitFinal).map trackedTruncate).take 10

/-- The invariant forced by the lost appends: a labelled section can carry a
non-empty points list only if it was opened by the list-item branch, in
which case its title is the literal `'Highlights'`. -/
def highlightsOnly (t : TrackedSection) : Prop :=
  t.sec.points ≠ [] →
    t.origin = SectionOrigin.fromListItem ∧ t.sec.title = some "Highlights"

/-! ### Field-level characterization of the backend classifier loop -/

lemma backendStep_instagram (d : BackendContacts) (h : String) :
    (backendStep d h).instagram =
      if pyContains (pyLower h) "instagram.com" && d.instagram.isNone then some h
      else d.instagram := by
  simp only [backendStep, apply_ite BackendContacts.instagram, ite_self]

lemma backendStep_whatsapp (d : BackendContacts) (h : String) :
    (backendStep d h).whatsapp =
      if (pyContains (pyLower h) "wa.me" || pyContains (pyLower h) "whatsapp")
          && d.whatsapp.isNone then some h
      else d.whatsapp := by
  simp only [backendStep, apply_ite BackendContacts.whatsapp,
    apply_ite BackendContacts.instagram, apply_ite Option.isNone, ite_self]

lemma backendStep_email (d : BackendContacts) (h : String) :
    (backendStep d h).email =
      if pyStartsWith h "mailto:" && d.email.isNone then some (pyRemoveAll h "mailto:")
      else d.email := by
  simp only [backendStep, apply_ite BackendContacts.email,
    apply_ite Option.isNone, ite_self]

lemma backendStep_x (d : BackendContacts) (h : String) :
    (backendStep d h).x =
      if (pyContains (pyLower h) "twitter.com" || pyContains (pyLower h) "x.com")
          && d.x.isNone then some h
      else d.x := by
  simp only [backendStep, apply_ite BackendContacts.x,
    apply_ite Option.isNone, ite_self]

/-- Generic first-match lemma: a fold step that fills an optional field once
(`cond && field.isNone`) computes `find?` of the condition, transformed by
`t`, on top of whatever the field already holds. -/
lemma foldl_firstMatch (step : BackendContacts → String → BackendContacts)
    (field : BackendContacts → Option String) (p : String → Bool) (t : String → String)
    (hstep : ∀ d h, field (step d h) =
      if p h && (field d).isNone then some (t h) else field d) :
    ∀ (hrefs : List String) (d : BackendContacts),
      field (hrefs.foldl step d) =
        match field d with
        | some v => some v
        | none => (hrefs.find? p).map t := by
  intro hrefs
  induction hrefs with
  | nil => intro d; cases hd : field d <;> simp [hd]
  | cons h hs ih =>
      intro d
      rw [List.foldl_cons, ih]
      cases hd : field d with
      | some v =>
          have hkeep : field (step d h) = some v := by rw [hstep, hd]; simp
          simp [hkeep]
      | none =>
          rw [hstep, hd]
          by_cases hp : p h = true
          · simp [hp, List.find?_cons_of_pos]
          · rw [Bool.not_eq_true] at hp
            rw [List.find?_cons_of_neg hs (show ¬ p h = true by simp [hp])]
            simp [hp]

lemma backend_fold_instagram (hrefs : List String) :
    (backend_import_contacts hrefs).instagram =
      hrefs.find? (fun h => pyContains (pyLower h) "instagram.com") := by
  have := foldl_firstMatch backendStep BackendContacts.instagram
    (fun h => pyContains (pyLower h) "instagram.com") id
    (fun d h => backendStep_instagram d h) hrefs {}
  simpa [backend_import_contacts] using this

lemma backend_fold_whatsapp (hrefs : List String) :
    (backend_import_contacts hrefs).whatsapp =
      hrefs.find? (fun h => pyContains (pyLower h) "wa.me" || pyContains (pyLower h) "whatsapp") := by
  have := foldl_firstMatch backendStep BackendContacts.whatsapp
    (fun h => pyContains (pyLower h) "wa.me" || pyContains (pyLower h) "whatsapp") id
    (fun d h => backendStep_whatsapp d h) hrefs {}
  simpa [backend_import_contacts] using this

lemma backend_fold_email (hrefs : List String) :
    (backend_import_contacts hrefs).email =
      (hrefs.find? (fun h => pyStartsWith h "mailto:")).map
        (fun h => pyRemoveAll h "mailto:") := by
  have := foldl_firstMatch backendStep BackendContacts.email
    (fun h => pyStartsWith h "mailto:") (fun h => pyRemoveAll h "mailto:")
    (fun d h => backendStep_email d h) hrefs {}
  simpa [backend_import_contacts] using this

lemma backend_fold_x (hrefs : List String) :
    (backend_import_contacts hrefs).x =
      hrefs.find? (fun h => pyContains (pyLower h) "twitter.com" || pyContains (pyLower h) "x.com") := by
  have := foldl_firstMatch backendStep BackendContacts.x
    (fun h => pyContains (pyLower h) "twitter.com" || pyContains (pyLower h) "x.com") id
    (fun d h => backendStep_x d h) hrefs {}
  simpa [backend_import_contacts] using this

/-! ### Characterization of the `src/main.py` classifier fields -/

lemma import_contacts_email (links : List String) :
    (import_contacts links).email = (links.find? isMailtoLink).map normalizeEmail := by
  unfold import_contacts
  cases hf : links.find? isMailtoLink with
  | none => simp [hf]
  | some e =>
      have hp : isMailtoLink e = true := List.find?_some hf
      have hne : e ≠ "" := by
        intro he
        rw [he] at hp
        exact absurd hp (by decide)
      have hie : e.isEmpty = false := by
        rw [← Bool.not_eq_true]
        intro hb
        exact hne ((String.isEmpty_iff e).mp hb)
      simp [hf, hp, hie]

/-! ### Size bound of the highlight pass -/

lemma buildHighlightsAux_length_le (bs : List Block) : ∀ acc : List Highlight,
    acc.length < 6 → (buildHighlightsAux bs acc).length ≤ 6 := by
  induction bs with
  | nil => intro acc h; unfold buildHighlightsAux; omega
  | cons b bs ih =>
      intro acc h
      have key : ∀ acc1 : List Highlight, acc1.length ≤ acc.length + 1 →
          (if 6 ≤ acc1.length then acc1 else buildHighlightsAux bs acc1).length ≤ 6 := by
        intro acc1 hlen
        split
        · omega
        · exact ih acc1 (by omega)
      obtain ⟨tag, text⟩ := b
      cases tag <;> simp only [buildHighlightsAux] <;> apply key <;>
        (try split) <;> simp [List.length_append]

lemma buildHighlights_length_le (blocks : List Block) :
    (buildHighlights blocks).length ≤ 6 := by
  unfold buildHighlights
  exact buildHighlightsAux_length_le _ [] (by simp)

/-! ### Size bound of the points truncation -/

lemma truncatePoints_length_le (s : ContentSection) :
    (truncatePoints s).points.length ≤ 8 := by
  unfold truncatePoints
  split
  · rename_i hemp
    rw [List.isEmpty_iff] at hemp
    simp [hemp]
  · simp [List.length_take]

lemma truncatePoints_title (s : ContentSection) :
    (truncatePoints s).title = s.title := by
  unfold truncatePoints; split <;> rfl

lemma appendPoint_title (c : ContentSection) (t : String) :
    (appendPoint c t).title = c.title := by
  unfold appendPoint; split <;> rfl

lemma appendPoint_of_points_nil (c : ContentSection) (t : String)
    (h : c.points = []) : appendPoint c t = c := by
  unfold appendPoint
  simp [h]

lemma appendPoint_points_ne (c : ContentSection) (t : String)
    (h : (appendPoint c t).points ≠ []) : c.points ≠ [] := by
  intro hc
  exact h (by rw [appendPoint_of_points_nil c t hc, hc])

/-! ### The instrumented walk projects onto the plain walk -/

lemma trackedStep_proj (st : TrackedState) (b : Block) :
    ((trackedStep st b).1.map TrackedSection.sec,
      (trackedStep st b).2.map TrackedSection.sec) =
      sectionStep (st.1.map TrackedSection.sec, st.2.map TrackedSection.sec) b := by
  obtain ⟨secs, cur⟩ := st
  obtain ⟨tag, text⟩ := b
  cases tag <;> cases cur <;>
    simp only [trackedStep, sectionStep, trackedAppend, List.map_append, List.map,
      Option.map_some', Option.map_none'] <;>
    (try split) <;>
    simp [List.map_append]

lemma foldl_trackedStep_proj (blocks : List Block) : ∀ st : TrackedState,
    ((blocks.foldl trackedStep st).1.map TrackedSection.sec,
      (blocks.foldl trackedStep st).2.map TrackedSection.sec) =
      blocks.foldl sectionStep (st.1.map TrackedSection.sec, st.2.map TrackedSection.sec) := by
  induction blocks with
  | nil => intro st; rfl
  | cons b bs ih =>
      intro st
      rw [List.foldl_cons, List.foldl_cons, ih, trackedStep_proj]

lemma trackedEmitFinal_proj (st : TrackedState) :
    (trackedEmitFinal st).map TrackedSection.sec =
      emitFinal (st.1.map TrackedSection.sec, st.2.map TrackedSection.sec) := by
  obtain ⟨secs, cur⟩ := st
  cases cur <;>
    simp only [trackedEmitFinal, emitFinal, Option.map_some', Option.map_none']
  split <;> simp [List.map_append]

lemma buildSectionsTracked_proj (blocks : List Block) :
    (buildSectionsTracked blocks).map TrackedSection.sec = (buildSections blocks).take 10 := by
  unfold buildSectionsTracked buildSections
  rw [List.map_take]
  congr 1
  rw [List.map_map]
  have hcomp : TrackedSection.sec ∘ trackedTruncate = truncatePoints ∘ TrackedSection.sec := rfl
  rw [hcomp, ← List.map_map, trackedEmitFinal_proj]
  have h := foldl_trackedStep_proj blocks ([], none)
  simp only [List.map_nil, Option.map_none'] at h
  rw [h]

/-! ### The lost-append invariant of the instrumented walk -/

lemma highlightsOnly_of_points_nil (t : TrackedSection) (h : t.sec.points = []) :
    highlightsOnly t := fun hne => absurd h hne

lemma trackedAppend_highlightsOnly (c : TrackedSection) (text : String)
    (h : highlightsOnly c) : highlightsOnly (trackedAppend c text) := by
  intro hne
  have hcne : c.sec.points ≠ [] := appendPoint_points_ne _ _ hne
  obtain ⟨ho, ht⟩ := h hcne
  refine ⟨ho, ?_⟩
  show (appendPoint c.sec text).title = some "Highlights"
  rw [appendPoint_title]
  exact ht

lemma trackedStep_inv (st : TrackedState) (b : Block)
    (ha : ∀ t ∈ st.1, highlightsOnly t) (hb : ∀ t ∈ st.2, highlightsOnly t) :
    (∀ t ∈ (trackedStep st b).1, highlightsOnly t) ∧
      (∀ t ∈ (trackedStep st b).2, highlightsOnly t) := by
  obtain ⟨secs, cur⟩ := st
  obtain ⟨tag, text⟩ := b
  have hbsome : ∀ c, cur = some c → highlightsOnly c := fun c hc => hb c (by simp [hc])
  cases tag with
  | h1 => exact ⟨ha, hb⟩
  | h2 =>
      cases cur with
      | none =>
          refine ⟨ha, ?_⟩
          intro t ht
          simp only [trackedStep, Option.mem_def, Option.some.injEq] at ht
          exact highlightsOnly_of_points_nil t (by rw [← ht])
      | some c =>
          refine ⟨?_, ?_⟩
          · intro t ht
            simp only [trackedStep] at ht
            split at ht
            · rcases List.mem_append.mp ht with h' | h'
              · exact ha t h'
              · rw [List.mem_singleton] at h'
                exact h' ▸ hbsome c rfl
            · exact ha t ht
          · intro t ht
            simp only [trackedStep, Option.mem_def, Option.some.injEq] at ht
            exact highlightsOnly_of_points_nil t (by rw [← ht])
  | h3 =>
      cases cur with
      | none =>
          refine ⟨ha, ?_⟩
          intro t ht
          simp only [trackedStep, Option.mem_def, Option.some.injEq] at ht
          exact highlightsOnly_of_points_nil t (by rw [← ht])
      | some c =>
          refine ⟨?_, ?_⟩
          · intro t ht
            simp only [trackedStep] at ht
            split at ht
            · rcases List.mem_append.mp ht with h' | h'
              · exact ha t h'
              · rw [List.mem_singleton] at h'
                exact h' ▸ hbsome c rfl
            · exact ha t ht
          · intro t ht
            simp only [trackedStep, Option.mem_def, Option.some.injEq] at ht
            exact highlightsOnly_of_points_nil t (by rw [← ht])
  | p =>
      cases cur with
      | none =>
          refine ⟨ha, ?_⟩
          intro t ht
          simp only [trackedStep, Option.mem_def, Option.some.injEq] at ht
          exact highlightsOnly_of_points_nil t (by rw [← ht])
      | some c =>
          refine ⟨?_, ?_⟩
          · intro t ht
            simp only [trackedStep] at ht
            split at ht <;> exact ha t ht
          · intro t ht
            simp only [trackedStep, Option.mem_def] at ht
            split at ht
            · rw [Option.some.injEq] at ht
              subst ht
              intro hne
              exact hbsome c rfl hne
            · rw [Option.some.injEq] at ht
              subst ht
              exact trackedAppend_highlightsOnly c text (hbsome c rfl)
  | li =>
      cases cur with
      | none =>
          refine ⟨ha, ?_⟩
          intro t ht
          simp only [trackedStep, Option.mem_def, Option.some.injEq] at ht
          subst ht
          intro hne
          exact ⟨rfl, rfl⟩
      | some c =>
          refine ⟨?_, ?_⟩
          · intro t ht
            simp only [trackedStep] at ht
            exact ha t ht
          · intro t ht
            simp only [trackedStep, Option.mem_def, Option.some.injEq] at ht
            subst ht
            exact trackedAppend_highlightsOnly c text (hbsome c rfl)

lemma foldl_trackedStep_inv (blocks : List Block) : ∀ st : TrackedState,
    (∀ t ∈ st.1, highlightsOnly t) → (∀ t ∈ st.2, highlightsOnly t) →
    (∀ t ∈ (blocks.foldl trackedStep st).1, highlightsOnly t) ∧
      (∀ t ∈ (blocks.foldl trackedStep st).2, highlightsOnly t) := by
  induction blocks with
  | nil => intro st ha hb; exact ⟨ha, hb⟩
  | cons b bs ih =>
      intro st ha hb
      rw [List.foldl_cons]
      obtain ⟨ha', hb'⟩ := trackedStep_inv st b ha hb
      exact ih (trackedStep st b) ha' hb'

lemma trackedEmitFinal_inv (st : TrackedState)
    (ha : ∀ t ∈ st.1, highlightsOnly t) (hb : ∀ t ∈ st.2, highlightsOnly t) :
    ∀ t ∈ trackedEmitFinal st, highlightsOnly t := by
  obtain ⟨secs, cur⟩ := st
  cases cur with
  | none => exact ha
  | some c =>
      intro t ht
      simp only [trackedEmitFinal] at ht
      split at ht
      · rcases List.mem_append.mp ht with h' | h'
        · exact ha t h'
        · rw [List.mem_singleton] at h'
          exact h' ▸ hb c (by simp)
      · exact ha t ht

lemma trackedTruncate_inv (t : TrackedSection) (h : highlightsOnly t) :
    highlightsOnly (trackedTruncate t) := by
  intro hne
  have hcne : t.sec.points ≠ [] := by
    intro hnil
    apply hne
    show (truncatePoints t.sec).points = []
    unfold truncatePoints
    simp [hnil]
  obtain ⟨ho, hti⟩ := h hcne
  refine ⟨ho, ?_⟩
  show (truncatePoints t.sec).title = some "Highlights"
  rw [truncatePoints_title]
  exact hti

lemma buildSectionsTracked_inv (blocks : List Block) :
    ∀ t ∈ buildSectionsTracked blocks, highlightsOnly t := by
  intro t ht
  unfold buildSectionsTracked at ht
  have ht' := (List.take_sublist 10 _).subset ht
  rcases List.mem_map.mp ht' with ⟨t0, ht0, rfl⟩
  have hfold := foldl_trackedStep_inv blocks ([], none) (by simp) (by simp)
  exact trackedTruncate_inv t0 (trackedEmitFinal_inv _ hfold.1 hfold.2 t0 ht0)

/-! ## Claim theorems -/

/-- C1: on the spec scenario — heading-2 `Services`, the long paragraph,
then the two list items `Fast` and `Reliable` — the code emits exactly one
section with the expected title and subtitle, but with an EMPTY points
list: both list-item appends went through `(current.points or []).append`
while `points` was empty and mutated a discarded temporary.  The spec's
expected value `points = ["Fast", "Reliable"]` is not produced. -/
theorem C1_services_scenario_eval :
    (import_content "https://site.example/" none none
        [⟨Tag.h2, "Services"⟩,
         ⟨Tag.p, "We build great things for clients worldwide."⟩,
         ⟨Tag.li, "Fast"⟩, ⟨Tag.li, "Reliable"⟩]).sections =
      [{ title := some "Services",
         subtitle := some "We build great things for clients worldwide.",
         points := [] }] ∧
    (import_content "https://site.example/" none none
        [⟨Tag.h2, "Services"⟩,
         ⟨Tag.p, "We build great things for clients worldwide."⟩,
         ⟨Tag.li, "Fast"⟩, ⟨Tag.li, "Reliable"⟩]).sections ≠
      [{ title := some "Services",
         subtitle := some "We build great things for clients worldwide.",
         points := ["Fast", "Reliable"] }] := by
  constructor
  · decide
  · decide

/-- C2 counterexample: a successfully fetched document whose only anchor is
`mailto:hello` makes the backend `import_contacts` raise — the extracted
e-mail value `hello` fails the `EmailStr` response-model validation, so the
pipeline is not total over successfully fetched bodies. -/
theorem C2_backend_raises_counterexample :
    backend_import_contacts_endpoint
        (FetchOutcome.ok { links := ["mailto:hello"] }) =
      Except.error { status := 500, detail := "ResponseValidationError" } := by
  rfl

/-- C2 amended: the `src/main.py` pipelines (`import_contacts`,
`import_content`) always return a value on a successfully fetched document;
the backend `import_contacts` returns a value exactly when every extracted
field passes the `Contacts` response-schema validation, and raises
otherwise. -/
theorem C2_totality_amended (url : String) (doc : ParsedDoc) :
    (import_contacts_endpoint (FetchOutcome.ok doc)).isOk = true ∧
    (import_content_endpoint url (FetchOutcome.ok doc)).isOk = true ∧
    (backend_import_contacts_endpoint (FetchOutcome.ok doc)).isOk =
      contactsSchemaAccepts (backend_import_contacts doc.links) := by
  refine ⟨rfl, rfl, ?_⟩
  show (if contactsSchemaAccepts (backend_import_contacts doc.links) then _ else _ :
    Except EndpointError BackendContacts).isOk = _
  split
  · rename_i h; rw [h]; rfl
  · rename_i h; rw [Bool.not_eq_true] at h; rw [h]; rfl

/-- C3: for every input document the response respects the size caps —
at most 10 sections, at most 6 highlights, and at most 8 points in every
emitted section. -/
theorem C3_size_caps (url : String) (title description : Option String)
    (blocks : List Block) :
    (import_content url title description blocks).sections.length ≤ 10 ∧
    (import_content url title description blocks).highlights.length ≤ 6 ∧
    ∀ s ∈ (import_content url title description blocks).sections,
      s.points.length ≤ 8 := by
  refine ⟨?_, ?_, ?_⟩
  · show ((buildSections blocks).take 10).length ≤ 10
    rw [List.length_take]
    exact min_le_left _ _
  · exact buildHighlights_length_le blocks
  · intro s hs
    have hs' := (List.take_sublist 10 _).subset hs
    unfold buildSections at hs'
    rcases List.mem_map.mp hs' with ⟨s0, _, rfl⟩
    exact truncatePoints_length_le s0

/-- C3 witness: the caps evaluated on a concrete one-list-item document. -/
theorem C3_size_caps_witness :
    ({ title := some "Highlights", subtitle := none, points := ["a"] } :
        ContentSection).points.length ≤ 8 :=
  (C3_size_caps "u" none none [⟨Tag.li, "a"⟩]).2.2 _ (by decide)

/-- C4: a 2-word paragraph arriving right after a heading fails the
subtitle gate, and the claim says it is then appended to the section's
points; on the code the append goes through `(current.points or [])` with
`points` empty, mutates a discarded temporary, and the emitted section has
empty points — the paragraph text is silently dropped, not turned into a
bullet point. -/
theorem C4_short_paragraph_dropped_eval :
    (import_content "https://site.example/" none none
        [⟨Tag.h2, "Intro"⟩, ⟨Tag.p, "hi"⟩]).sections =
      [{ title := some "Intro", subtitle := none, points := [] }] ∧
    (import_content "https://site.example/" none none
        [⟨Tag.h2, "Intro"⟩, ⟨Tag.p, "hi"⟩]).sections ≠
      [{ title := some "Intro", subtitle := none, points := ["hi"] }] := by
  constructor
  · decide
  · decide

/-- C5 counterexample: the backend revision of `import_contacts` violates
the claim — for href `mailto:a@b.com?subject=hi` it keeps the query string
(`replace("mailto:", "")` only removes the prefix), and an upper-case
`MAILTO:` href is not classified as e-mail at all (its match is
case-sensitive). -/
theorem C5_backend_email_counterexample :
    (backend_import_contacts ["mailto:a@b.com?subject=hi"]).email =
        some "a@b.com?subject=hi" ∧
    (backend_import_contacts ["mailto:a@b.com?subject=hi"]).email ≠ some "a@b.com" ∧
    (backend_import_contacts ["MAILTO:x@y.com"]).email = none := by
  refine ⟨?_, ?_, ?_⟩
  · decide
  · decide
  · decide

/-- C5 amended: in `src/main.py` an href is classified as e-mail iff its
lowercase form starts with `mailto:`, and the returned value is the href
after the first `:` with everything from the first `?` stripped (so
`mailto:a@b.com?subject=hi` yields `a@b.com`); in `src/backend/main.py` the
match is the case-sensitive `startswith("mailto:")` and the value is the
href with every `mailto:` occurrence removed and the query string kept. -/
theorem C5_email_normalization_amended (links : List String) :
    (import_contacts links).email = (links.find? isMailtoLink).map normalizeEmail ∧
    normalizeEmail "mailto:a@b.com?subject=hi" = "a@b.com" ∧
    (backend_import_contacts links).email =
      (links.find? (fun h => pyStartsWith h "mailto:")).map
        (fun h => pyRemoveAll h "mailto:") :=
  ⟨import_contacts_email links, by decide, backend_fold_email links⟩

/-- C6 counterexample: in the backend revision the e-mail category does not
pick the first href whose LOWERCASE form matches — `MAILTO:a@b.com` comes
first and its lowercase form starts with `mailto:`, yet the classifier
skips it (case-sensitive check) and returns the value derived from the
second href. -/
theorem C6_backend_email_order_counterexample :
    pyStartsWith (pyLower "MAILTO:a@b.com") "mailto:" = true ∧
    (backend_import_contacts ["MAILTO:a@b.com", "mailto:c@d.com"]).email =
        some "c@d.com" ∧
    (backend_import_contacts ["MAILTO:a@b.com", "mailto:c@d.com"]).email ≠
        some "MAILTO:a@b.com" := by
  refine ⟨?_, ?_, ?_⟩
  · decide
  · decide
  · decide

/-- C6 amended: every category of both classifiers returns the first href
in document order satisfying that category's own predicate; in
`src/main.py` all four predicates test the lowercase form, and in
`src/backend/main.py` so do instagram, whatsapp and x, while the e-mail
predicate tests the raw href case-sensitively.  The two-instagram-links
example returns the first link in both revisions. -/
theorem C6_first_match_amended (links : List String) :
    (import_contacts links).instagram = links.find? isInstagramLink ∧
    (import_contacts links).whatsapp = links.find? isWhatsappLink ∧
    (import_contacts links).x = links.find? isXLink ∧
    (import_contacts links).email = (links.find? isMailtoLink).map normalizeEmail ∧
    (backend_import_contacts links).instagram =
      links.find? (fun h => pyContains (pyLower h) "instagram.com") ∧
    (backend_import_contacts links).whatsapp =
      links.find? (fun h => pyContains (pyLower h) "wa.me" || pyContains (pyLower h) "whatsapp") ∧
    (backend_import_contacts links).email =
      (links.find? (fun h => pyStartsWith h "mailto:")).map
        (fun h => pyRemoveAll h "mailto:") ∧
    (backend_import_contacts links).x =
      links.find? (fun h => pyContains (pyLower h) "twitter.com" || pyContains (pyLower h) "x.com") ∧
    (import_contacts ["https://instagram.com/x", "https://instagram.com/y"]).instagram =
      some "https://instagram.com/x" ∧
    (backend_import_contacts ["https://instagram.com/x", "https://instagram.com/y"]).instagram =
      some "https://instagram.com/x" :=
  ⟨rfl, rfl, rfl, import_contacts_email links, backend_fold_instagram links,
    backend_fold_whatsapp links, backend_fold_email links, backend_fold_x links,
    by decide, by decide⟩

/-- C7 counterexample: the backend revision classifies as whatsapp any href
whose lowercase form merely contains `whatsapp` — this href contains none
of the three claimed substrings (`wa.me/`, `api.whatsapp.com/`,
`whatsapp.com/send`) yet is returned in the whatsapp field. -/
theorem C7_backend_whatsapp_counterexample :
    (backend_import_contacts ["https://wiki.example/whatsapp"]).whatsapp =
        some "https://wiki.example/whatsapp" ∧
    pyContains (pyLower "https://wiki.example/whatsapp") "wa.me/" = false ∧
    pyContains (pyLower "https://wiki.example/whatsapp") "api.whatsapp.com/" = false ∧
    pyContains (pyLower "https://wiki.example/whatsapp") "whatsapp.com/send" = false := by
  refine ⟨?_, ?_, ?_, ?_⟩
  · decide
  · decide
  · decide
  · decide

/-- C7 amended: the three-substring criterion is exactly the whatsapp
predicate of `src/main.py`, whose field is the first matching href (so an
href matching none of the three is never returned there); the backend
revision instead matches any lowercase occurrence of `wa.me` or
`whatsapp`. -/
theorem C7_whatsapp_patterns_amended (links : List String) :
    (∀ l : String, isWhatsappLink l =
      (pyContains (pyLower l) "wa.me/" || pyContains (pyLower l) "api.whatsapp.com/" ||
        pyContains (pyLower l) "whatsapp.com/send")) ∧
    (import_contacts links).whatsapp = links.find? isWhatsappLink ∧
    (∀ l, (import_contacts links).whatsapp = some l → isWhatsappLink l = true) ∧
    (backend_import_contacts links).whatsapp =
      links.find? (fun h => pyContains (pyLower h) "wa.me" || pyContains (pyLower h) "whatsapp") := by
  refine ⟨fun l => rfl, rfl, ?_, backend_fold_whatsapp links⟩
  intro l hl
  have hfind : links.find? isWhatsappLink = some l := hl
  exact List.find?_some hfind

/-- C7 witness: the amended never-returned direction applied at a concrete
matching link. -/
theorem C7_whatsapp_patterns_amended_witness :
    isWhatsappLink "https://wa.me/123" = true :=
  (C7_whatsapp_patterns_amended ["https://wa.me/123"]).2.2.1 "https://wa.me/123" (by decide)

/-- C8: every fetch failure (any exception out of `requests.get` /
`raise_for_status`, covering network failures, timeouts and non-2xx
statuses) is caught by all three endpoints and returned as an HTTP 400
whose detail embeds the upstream cause message; no other outcome is
possible on the failure path. -/
theorem C8_fetch_failure_maps_to_400 (url cause : String) :
    import_contacts_endpoint (FetchOutcome.fail cause) =
      Except.error { status := 400, detail := "Failed to fetch URL: " ++ cause } ∧
    import_content_endpoint url (FetchOutcome.fail cause) =
      Except.error { status := 400, detail := "Failed to fetch URL: " ++ cause } ∧
    backend_import_contacts_endpoint (FetchOutcome.fail cause) =
      Except.error { status := 400, detail := "Failed to fetch source: " ++ cause } :=
  ⟨rfl, rfl, rfl⟩

/-- C9: the embedded extraction transforms are deterministic — two runs on
the same parsed document (same blocks, same links, same url and metadata)
produce equal outputs. -/
theorem C9_extraction_deterministic (url : String) (title description : Option String)
    (blocks : List Block) (links : List String) :
    import_content url title description blocks =
      import_content url title description blocks ∧
    import_contacts links = import_contacts links ∧
    backend_import_contacts links = backend_import_contacts links :=
  ⟨rfl, rfl, rfl⟩

/-- C10: an append attempted while the current section's points list is
empty mutates a discarded temporary (`appendPoint` is the identity there);
consequently, in the provenance-instrumented walk — which projects exactly
onto the emitted sections of `import_content` — every section opened by a
heading-2/heading-3 or by a paragraph has an empty points list, and a
section with non-empty points can only be one opened by a list item with
no section in progress, whose title is the literal `Highlights`. -/
theorem C10_lost_appends_invariant (blocks : List Block) (url : String)
    (title description : Option String) :
    (∀ (c : ContentSection) (t : String), c.points = [] → appendPoint c t = c) ∧
    (buildSectionsTracked blocks).map TrackedSection.sec =
      (import_content url title description blocks).sections ∧
    ∀ t ∈ buildSectionsTracked blocks,
      ((t.origin = SectionOrigin.fromHeading ∨ t.origin = SectionOrigin.fromParagraph) →
        t.sec.points = []) ∧
      (t.sec.points ≠ [] →
        t.origin = SectionOrigin.fromListItem ∧ t.sec.title = some "Highlights") := by
  refine ⟨appendPoint_of_points_nil, buildSectionsTracked_proj blocks, ?_⟩
  intro t ht
  have hinv := buildSectionsTracked_inv blocks t ht
  refine ⟨?_, hinv⟩
  intro ho
  by_contra hne
  obtain ⟨hli, _⟩ := hinv hne
  rcases ho with h | h <;> rw [h] at hli <;> exact absurd hli (by decide)

/-- C10 witness: the invariant applied to the section opened by the `h2`
heading of a concrete document whose following list item was lost. -/
theorem C10_lost_appends_invariant_witness :
    ({ sec := { title := some "T", subtitle := none, points := [] },
       origin := SectionOrigin.fromHeading } : TrackedSection).sec.points = [] :=
  ((C10_lost_appends_invariant [⟨Tag.h2, "T"⟩, ⟨Tag.li, "a"⟩] "u" none none).2.2
      _ (by decide)).1 (Or.inl rfl)
